import Mathlib

/-!
Verification of the Zap archiver core: the extension codec, the per-file
processing pipeline, and the directory orchestrator.

Shallow embedding conventions:
- Byte streams are modelled as `List Nat`.
- Filenames are modelled as `String`; splitting on a separator character is
  implemented by structural recursion over the underlying character list so
  that every definition evaluates inside the kernel.
- The concrete algorithm modules (`compression/*`, `encryption/*`,
  `signing/*`) are not part of the sources provided under `src/`; they are
  modelled from the spec (section 4.1) as invertible stream transforms and
  are marked as such in their doc comments.
- The pipeline builder chain in `src/src/pipeline/mod.rs` is embedded as a
  family of staged functions (`build_encryptor`, `build_compressor`,
  `build_signer` and their decompression mirrors) threading a sink
  transform, exactly following the staging of the source.
-/

/-- Embeds `EncryptionType` from `src/src/encryption` (variants as used in
`src/src/lib.rs` and `src/src/pipeline/mod.rs`). -/
inductive EncryptionType
  | Passthrough
  | XChaCha
  | ChaCha
  | AesGcm
deriving DecidableEq

/-- Embeds `CompressionType` from `src/src/compression` (variants as used in
`src/src/lib.rs` and `src/src/pipeline/mod.rs`). -/
inductive CompressionType
  | Passthrough
  | Lz4
  | Gzip
  | Snappy
deriving DecidableEq

/-- Embeds `SigningType`: only the identity variant exists today. -/
inductive SigningType
  | Passthrough
deriving DecidableEq

/-- Embeds `EncryptionSecret` from `src/src/encryption`: no secret, a
password (byte vector), or a key-file path (unimplemented upstream). -/
inductive EncryptionSecret
  | None
  | Password (p : List Nat)
  | Key (path : String)
deriving DecidableEq

/-- Whether the secret is the (unimplemented) key-file variant. -/
def isKeySecret : EncryptionSecret → Bool
  | EncryptionSecret.Key _ => true
  | _ => false

/-! ## Character-level tokenizer

Rust splits filenames with `str::split(sep)`; we embed that as structural
recursion on the character list, so `splitOnChar sep ""` is `[""]` and
separators at the ends produce empty tokens, exactly as in Rust. -/

/-- Split a character list at every occurrence of `sep`. -/
def splitSepChars (sep : Char) : List Char → List (List Char)
  | [] => [[]]
  | c :: rest =>
    match splitSepChars sep rest with
    | [] => [[]]
    | t :: ts => if c = sep then [] :: t :: ts else (c :: t) :: ts

/-- Split a string at every occurrence of the character `sep`. -/
def splitOnChar (sep : Char) (s : String) : List String :=
  (splitSepChars sep s.data).map String.mk

/-- Dot-separated tokens of a filename, as produced by `split('.')` in
`clear_ext` and `get_types_from_extensions` (src/src/lib.rs). -/
def splitDots (s : String) : List String :=
  splitOnChar '.' s

/-- Join tokens back with dots, as `join(".")` does in `clear_ext`. -/
def joinDots (ts : List String) : String :=
  String.intercalate "." ts

/-- Embeds `str::trim_start_matches('.')`: drop every leading dot. -/
def trimLeadingDots (s : String) : String :=
  String.mk (s.data.dropWhile (fun c => c = '.'))

/-! ## Extension codec (src/src/lib.rs) -/

/-- Embeds `build_common_extension` (src/src/lib.rs lines 28-46): the
encryption tag (when not passthrough) followed by the compression tag (when
not passthrough), each with a leading dot. -/
def build_common_extension (enc : EncryptionType) (comp : CompressionType) : String :=
  (match enc with
    | EncryptionType.Passthrough => ""
    | EncryptionType.XChaCha => ".xcha"
    | EncryptionType.AesGcm => ".aes"
    | EncryptionType.ChaCha => ".cha") ++
  (match comp with
    | CompressionType.Passthrough => ""
    | CompressionType.Lz4 => ".lz4"
    | CompressionType.Gzip => ".gz"
    | CompressionType.Snappy => ".sz")

/-- Embeds `Path::extension` for a file name: `none` when there is no
embedded dot, or when the name begins with a dot and has no other dot;
otherwise the portion after the final dot. -/
def rustExtension (name : String) : Option String :=
  let ts := splitDots name
  if ts.length < 2 then none
  else if ts.length = 2 ∧ ts.head? = some "" then none
  else ts.getLast?

/-- Embeds `Path::with_extension` for a file name: replace the current
extension (per `rustExtension`) with `ext`; an empty `ext` removes the
extension together with its dot. -/
def withExtension (name ext : String) : String :=
  let stem := match rustExtension name with
    | none => name
    | some _ => joinDots ((splitDots name).dropLast)
  if ext = "" then stem else stem ++ "." ++ ext

/-- Embeds `rewrite_ext` (src/src/lib.rs lines 48-63) on the file-name
component: when the name has an extension, the common extension is appended
after it; when it has none, the common extension (with leading dots
trimmed) becomes the new extension. The non-UTF8 error branch of the source
is unrepresentable in this model, so the result is total. -/
def rewrite_ext (name : String) (extension : String) : String :=
  match rustExtension name with
  | some ext => withExtension name (ext ++ extension)
  | none => withExtension name (trimLeadingDots extension)

/-- The recognised suffix-tag vocabulary, from the `retain` filter in
`clear_ext` (src/src/lib.rs line 78). -/
def zapTags : List String := ["xcha", "aes", "cha", "lz4", "gz", "sz"]

/-- Embeds `clear_ext` (src/src/lib.rs lines 65-91) on the file-name
component: split on dots, reverse, retain the tokens that are not
recognised tags, reverse back and re-join with dots. -/
def clear_ext (name : String) : String :=
  joinDots (((splitDots name).reverse.filter (fun t => !(zapTags.contains t))).reverse)

/-- One step of the tag-classification loop shared by
`get_types_from_extensions` (src/src/lib.rs lines 108-118) and the Extract
branch of `Command::execute` (src/src/bin/cli_util/mod.rs lines 174-184):
a recognised token overwrites the current choice of its family, any other
token leaves the state unchanged. -/
def classifyStep (ec : EncryptionType × CompressionType) (t : String) :
    EncryptionType × CompressionType :=
  if t = "xcha" then (EncryptionType.XChaCha, ec.2)
  else if t = "aes" then (EncryptionType.AesGcm, ec.2)
  else if t = "cha" then (EncryptionType.ChaCha, ec.2)
  else if t = "lz4" then (ec.1, CompressionType.Lz4)
  else if t = "gz" then (ec.1, CompressionType.Gzip)
  else if t = "sz" then (ec.1, CompressionType.Snappy)
  else ec

/-- Embeds `get_types_from_extensions` (src/src/lib.rs lines 93-121): fold
the classification step over the reversed token list, starting from the
passthrough pair. -/
def get_types_from_extensions (name : String) : EncryptionType × CompressionType :=
  (splitDots name).reverse.foldl classifyStep
    (EncryptionType.Passthrough, CompressionType.Passthrough)

/-- Embeds the algorithm-resolution loop of the Extract command
(src/src/bin/cli_util/mod.rs lines 163-189): the mutable
`encryption_algorithm` and `compression_algorithm` variables start from the
caller-supplied flags and are overwritten by every recognised token of the
reversed token list. The `Bin*` CLI enums mirror the library enums
one-to-one (via `Into`), so the library enums stand in for them here. -/
def resolveExtractTypes (encFlag : EncryptionType) (compFlag : CompressionType)
    (name : String) : EncryptionType × CompressionType :=
  (splitDots name).reverse.foldl classifyStep (encFlag, compFlag)

/-- Classification of a single token as an encryption tag. -/
def encOfTok (t : String) : Option EncryptionType :=
  if t = "xcha" then some EncryptionType.XChaCha
  else if t = "aes" then some EncryptionType.AesGcm
  else if t = "cha" then some EncryptionType.ChaCha
  else none

/-- Classification of a single token as a compression tag. -/
def compOfTok (t : String) : Option CompressionType :=
  if t = "lz4" then some CompressionType.Lz4
  else if t = "gz" then some CompressionType.Gzip
  else if t = "sz" then some CompressionType.Snappy
  else none

/-- Stated from the words of the spec (section 4.3 / section 6): the
encryption tag contributed by each variant. Compared against
`build_common_extension` in the claim about suffix encoding. -/
def enc_tag (e : EncryptionType) : String :=
  match e with
  | EncryptionType.Passthrough => ""
  | EncryptionType.XChaCha => ".xcha"
  | EncryptionType.AesGcm => ".aes"
  | EncryptionType.ChaCha => ".cha"

/-- Stated from the words of the spec (section 4.3 / section 6): the
compression tag contributed by each variant. -/
def comp_tag (c : CompressionType) : String :=
  match c with
  | CompressionType.Passthrough => ""
  | CompressionType.Lz4 => ".lz4"
  | CompressionType.Gzip => ".gz"
  | CompressionType.Snappy => ".sz"

/-! ## Algorithm modules

The concrete algorithm crates (`src/encryption/*.rs`, `src/compression/*.rs`,
`src/signing/*.rs`) are not among the provided sources; per the spec they are
external stream transforms. Each is modelled from the spec as an executable,
invertible byte-list transform. -/

/-- Modelled from the spec: key material derived from a `Password` secret
(the missing encryption modules consume the password bytes). -/
def keyOf (p : List Nat) : Nat :=
  p.foldl (fun a b => a + b) 0

/-- Modelled from the spec: the XChaCha-Poly module (missing from `src/`),
as a keyed invertible byte shift. -/
def xchachaEncrypt (p : List Nat) (data : List Nat) : List Nat :=
  data.map (fun b => b + (keyOf p + 1))

/-- Modelled from the spec: inverse of `xchachaEncrypt`. -/
def xchachaDecrypt (p : List Nat) (data : List Nat) : List Nat :=
  data.map (fun b => b - (keyOf p + 1))

/-- Modelled from the spec: the ChaCha-Poly module (missing from `src/`). -/
def chachaEncrypt (p : List Nat) (data : List Nat) : List Nat :=
  data.map (fun b => b + (keyOf p + 2))

/-- Modelled from the spec: inverse of `chachaEncrypt`. -/
def chachaDecrypt (p : List Nat) (data : List Nat) : List Nat :=
  data.map (fun b => b - (keyOf p + 2))

/-- Modelled from the spec: the AES-GCM module (missing from `src/`). -/
def aesGcmEncrypt (p : List Nat) (data : List Nat) : List Nat :=
  data.map (fun b => b + (keyOf p + 3))

/-- Modelled from the spec: inverse of `aesGcmEncrypt`. -/
def aesGcmDecrypt (p : List Nat) (data : List Nat) : List Nat :=
  data.map (fun b => b - (keyOf p + 3))

/-- Modelled from the spec: the LZ4 module (missing from `src/`), as a
header-tagged lossless coding. -/
def lz4_compress (data : List Nat) : List Nat :=
  76 :: data

/-- Modelled from the spec: the LZ4 decompressor fails on a stream that is
not an LZ4 frame. -/
def lz4_decompress (data : List Nat) : Option (List Nat) :=
  match data with
  | 76 :: rest => some rest
  | _ => none

/-- Modelled from the spec: the gzip module (missing from `src/`); the
compression level is recorded on the compress path only. -/
def gzip_compress (lvl : Nat) (data : List Nat) : List Nat :=
  31 :: 139 :: lvl :: data

/-- Modelled from the spec: the gzip decompressor ignores the recorded
level and fails on a stream that is not a gzip frame. -/
def gzip_decompress (data : List Nat) : Option (List Nat) :=
  match data with
  | 31 :: 139 :: _ :: rest => some rest
  | _ => none

/-- Modelled from the spec: the Snappy module (missing from `src/`). -/
def snappy_compress (data : List Nat) : List Nat :=
  255 :: data

/-- Modelled from the spec: the Snappy decompressor. -/
def snappy_decompress (data : List Nat) : Option (List Nat) :=
  match data with
  | 255 :: rest => some rest
  | _ => none

/-- Modelled from the spec: the passthrough compression module passes bytes
through unchanged. -/
def passthrough_compress (data : List Nat) : List Nat :=
  data

/-- Modelled from the spec: the passthrough decompressor cannot fail. -/
def passthrough_decompress (data : List Nat) : Option (List Nat) :=
  some data

/-- Modelled from the spec: `SignerPassthrough` performs no transformation
and its finalise step returns no trailing block. -/
def signer_passthrough (data : List Nat) : List Nat :=
  data

/-- Modelled from the spec: `VerifierPassthrough` performs no
transformation and never fails. -/
def verifier_passthrough (data : List Nat) : List Nat :=
  data

/-! ## Processing pipeline (src/src/pipeline/mod.rs) -/

/-- Error outcomes of a pipeline run. `Panicked` embeds a Rust panic (the
source reaches one through the `unimplemented` macro in `build_encryptor`
and `build_dencryptor`); `InitError` embeds the `EncryptorInitError` family
of src/src/error.rs; `DecompressionFailed` embeds a decompression failure
of the named codec. -/
inductive PipelineError
  | Panicked (msg : String)
  | InitError (msg : String)
  | DecompressionFailed (codec : String)
deriving DecidableEq

/-- Name used by the decompression-failure embedding for each codec. -/
def codec_name (c : CompressionType) : String :=
  match c with
  | CompressionType.Lz4 => "lz4"
  | CompressionType.Gzip => "gz"
  | CompressionType.Snappy => "sz"
  | CompressionType.Passthrough => "id"

/-- Embeds `ProcessingPipeline::build_signer` (src/src/pipeline/mod.rs
lines 227-237) together with `execute_compression_pipeline` and
`PipelineTask::compress` (lines 348-359): wrap the current sink with the
signer, copy all source bytes through the composed writer and finalise.
The value returned is the byte stream that reaches the destination sink. -/
def build_signer (s : SigningType) (io : List Nat → List Nat) (source : List Nat) :
    Except PipelineError (List Nat) :=
  match s with
  | SigningType.Passthrough => Except.ok (io (signer_passthrough source))

/-- Embeds `ProcessingPipeline::build_compressor` (src/src/pipeline/mod.rs
lines 211-225): wrap the sink produced so far with the chosen compressor
and continue with the signer stage. -/
def build_compressor (c : CompressionType) (lvl : Nat) (s : SigningType)
    (io : List Nat → List Nat) (source : List Nat) : Except PipelineError (List Nat) :=
  match c with
  | CompressionType.Lz4 => build_signer s (fun d => io (lz4_compress d)) source
  | CompressionType.Gzip => build_signer s (fun d => io (gzip_compress lvl d)) source
  | CompressionType.Snappy => build_signer s (fun d => io (snappy_compress d)) source
  | CompressionType.Passthrough => build_signer s (fun d => io (passthrough_compress d)) source

/-- Embeds `ProcessingPipeline::build_encryptor` (src/src/pipeline/mod.rs
lines 191-209): match on the secret first; a password selects the cipher
named by the encryption type, a missing secret short-circuits to the
passthrough encryptor, and a key-file secret reaches the `unimplemented`
macro, embedded as a panic outcome. -/
def build_encryptor (e : EncryptionType) (sec : EncryptionSecret) (c : CompressionType)
    (lvl : Nat) (s : SigningType) (io : List Nat → List Nat) (source : List Nat) :
    Except PipelineError (List Nat) :=
  match sec with
  | EncryptionSecret.Password p =>
    match e with
    | EncryptionType.XChaCha => build_compressor c lvl s (fun d => io (xchachaEncrypt p d)) source
    | EncryptionType.ChaCha => build_compressor c lvl s (fun d => io (chachaEncrypt p d)) source
    | EncryptionType.AesGcm => build_compressor c lvl s (fun d => io (aesGcmEncrypt p d)) source
    | EncryptionType.Passthrough => build_compressor c lvl s (fun d => io d) source
  | EncryptionSecret.Key _ => Except.error (PipelineError.Panicked "Key encryption not yet implemented")
  | EncryptionSecret.None => build_compressor c lvl s (fun d => io d) source

/-- Embeds `ProcessingPipeline::build_verifier` (src/src/pipeline/mod.rs
lines 287-297) with `execute_decompression_pipeline` and
`PipelineTask::decompress`: the verifier wraps the reader chain, all bytes
are copied to the destination and finalise succeeds for the passthrough
verifier. -/
def build_verifier (s : SigningType) (data : List Nat) : Except PipelineError (List Nat) :=
  match s with
  | SigningType.Passthrough => Except.ok (verifier_passthrough data)

/-- Embeds `ProcessingPipeline::build_decompressor` (src/src/pipeline/mod.rs
lines 271-285): wrap the reader with the chosen decompressor; a stream the
codec cannot parse surfaces as a decompression error. -/
def build_decompressor (c : CompressionType) (lvl : Nat) (s : SigningType)
    (data : List Nat) : Except PipelineError (List Nat) :=
  match c with
  | CompressionType.Lz4 =>
    match lz4_decompress data with
    | some d => build_verifier s d
    | none => Except.error (PipelineError.DecompressionFailed "lz4")
  | CompressionType.Gzip =>
    match gzip_decompress data with
    | some d => build_verifier s d
    | none => Except.error (PipelineError.DecompressionFailed "gz")
  | CompressionType.Snappy =>
    match snappy_decompress data with
    | some d => build_verifier s d
    | none => Except.error (PipelineError.DecompressionFailed "sz")
  | CompressionType.Passthrough =>
    match passthrough_decompress data with
    | some d => build_verifier s d
    | none => Except.error (PipelineError.DecompressionFailed "id")

/-- Embeds `ProcessingPipeline::build_dencryptor` (src/src/pipeline/mod.rs
lines 251-269): the decompress-direction mirror of `build_encryptor`. -/
def build_dencryptor (e : EncryptionType) (sec : EncryptionSecret) (c : CompressionType)
    (lvl : Nat) (s : SigningType) (archived : List Nat) : Except PipelineError (List Nat) :=
  match sec with
  | EncryptionSecret.Password p =>
    match e with
    | EncryptionType.XChaCha => build_decompressor c lvl s (xchachaDecrypt p archived)
    | EncryptionType.ChaCha => build_decompressor c lvl s (chachaDecrypt p archived)
    | EncryptionType.AesGcm => build_decompressor c lvl s (aesGcmDecrypt p archived)
    | EncryptionType.Passthrough => build_decompressor c lvl s archived
  | EncryptionSecret.Key _ => Except.error (PipelineError.Panicked "Key encryption not yet implemented")
  | EncryptionSecret.None => build_decompressor c lvl s archived

/-- Filesystem-visible outcome of `ProcessingPipeline::compress_dir`:
whether the destination file was created (truncated) and the pipeline
result, whose value is the byte stream written to the destination. -/
structure CompressDirOutcome where
  destCreated : Bool
  result : Except PipelineError (List Nat)

/-- Embeds `ProcessingPipeline::compress_dir` (src/src/pipeline/mod.rs
lines 179-183): `File::create(destination)` runs first (so the destination
is created and truncated unconditionally, assuming the create call itself
succeeds), then the staged builder chain starting at `build_encryptor`
with the destination file as the innermost sink. -/
def compress_dir (e : EncryptionType) (sec : EncryptionSecret) (c : CompressionType)
    (lvl : Nat) (s : SigningType) (source : List Nat) : CompressDirOutcome :=
  { destCreated := true
    result := build_encryptor e sec c lvl s (fun d => d) source }

/-- Embeds `ProcessingPipeline::decompress_dir` (src/src/pipeline/mod.rs
lines 185-189): open the archived source and run the mirror chain starting
at `build_dencryptor`; the value is the byte stream written to the
destination. -/
def decompress_dir (e : EncryptionType) (sec : EncryptionSecret) (c : CompressionType)
    (lvl : Nat) (s : SigningType) (archived : List Nat) : Except PipelineError (List Nat) :=
  build_dencryptor e sec c lvl s archived

/-- The byte transform selected by `build_encryptor` for a given secret and
encryption type (identity for a missing secret or the passthrough cipher). -/
def enc_fun (e : EncryptionType) (sec : EncryptionSecret) : List Nat → List Nat :=
  match sec with
  | EncryptionSecret.Password p =>
    match e with
    | EncryptionType.XChaCha => xchachaEncrypt p
    | EncryptionType.ChaCha => chachaEncrypt p
    | EncryptionType.AesGcm => aesGcmEncrypt p
    | EncryptionType.Passthrough => fun d => d
  | _ => fun d => d

/-- The byte transform selected by `build_dencryptor`, mirror of
`enc_fun`. -/
def dec_fun (e : EncryptionType) (sec : EncryptionSecret) : List Nat → List Nat :=
  match sec with
  | EncryptionSecret.Password p =>
    match e with
    | EncryptionType.XChaCha => xchachaDecrypt p
    | EncryptionType.ChaCha => chachaDecrypt p
    | EncryptionType.AesGcm => aesGcmDecrypt p
    | EncryptionType.Passthrough => fun d => d
  | _ => fun d => d

/-- The compressing byte transform selected by `build_compressor`. -/
def comp_fun (c : CompressionType) (lvl : Nat) : List Nat → List Nat :=
  match c with
  | CompressionType.Lz4 => lz4_compress
  | CompressionType.Gzip => gzip_compress lvl
  | CompressionType.Snappy => snappy_compress
  | CompressionType.Passthrough => passthrough_compress

/-- The decompressing byte transform selected by `build_decompressor`. -/
def decomp_fun (c : CompressionType) : List Nat → Option (List Nat) :=
  match c with
  | CompressionType.Lz4 => lz4_decompress
  | CompressionType.Gzip => gzip_decompress
  | CompressionType.Snappy => snappy_decompress
  | CompressionType.Passthrough => passthrough_decompress

/-! ## Directory orchestrator (src/src/lib.rs)

Both `compress_directory` (lines 123-223) and `decompress_directory`
(lines 227-325) run two `rayon` fan-outs in sequence: a `par_iter`
`for_each` that creates every destination parent directory, followed by an
`into_par_iter` `for_each` that runs one pipeline per job. Each `for_each`
is a blocking call, so the orchestration is a sequence of two phases; file
order inside a phase is unspecified, which does not affect the cross-phase
ordering stated below, so each phase is modelled as a block of events in
input order. -/

/-- An observable step of a directory operation. -/
inductive DirEvent
  | MkDir (parent : String)
  | RunPipeline (input output : String)
deriving DecidableEq

/-- Whether an event is a directory creation. -/
def isMkDirEvent : DirEvent → Bool
  | DirEvent.MkDir _ => true
  | _ => false

/-- Whether an event is a per-file pipeline execution. -/
def isRunEvent : DirEvent → Bool
  | DirEvent.RunPipeline _ _ => true
  | _ => false

/-- Embeds `Path::parent` on a slash-separated path: everything before the
final component. -/
def parent_dir (p : String) : String :=
  String.intercalate "/" ((splitOnChar '/' p).dropLast)

/-- Event trace of `compress_directory` (src/src/lib.rs lines 141-220):
jobs pair each input path with the suffix-rewritten output path under the
output folder; the directory-creation fan-out over all job outputs is
followed by the per-file pipeline fan-out. -/
def compress_directory_trace (inputs : List String) (outputFolder : String)
    (commonExtension : String) : List DirEvent :=
  let jobs := inputs.map (fun i => (i, outputFolder ++ "/" ++ rewrite_ext i commonExtension))
  jobs.map (fun j => DirEvent.MkDir (parent_dir j.2))
    ++ jobs.map (fun j => DirEvent.RunPipeline j.1 j.2)

/-- Event trace of `decompress_directory` (src/src/lib.rs lines 241-322):
identical phase structure, with `clear_ext` computing the output paths. -/
def decompress_directory_trace (inputs : List String) (outputFolder : String) :
    List DirEvent :=
  let jobs := inputs.map (fun i => (i, outputFolder ++ "/" ++ clear_ext i))
  jobs.map (fun j => DirEvent.MkDir (parent_dir j.2))
    ++ jobs.map (fun j => DirEvent.RunPipeline j.1 j.2)

/-! ## Helper lemmas -/

/-- Mapping an inverse after a map restores the list. -/
lemma map_inverse_id (f g : Nat → Nat) (h : ∀ b, g (f b) = b) (l : List Nat) :
    (l.map f).map g = l := by
  induction l with
  | nil => rfl
  | cons x xs ih => simp only [List.map_cons]; rw [h x, ih]

/-- The modelled XChaCha decryptor inverts the encryptor. -/
lemma xchacha_roundtrip (p : List Nat) (l : List Nat) :
    xchachaDecrypt p (xchachaEncrypt p l) = l := by
  unfold xchachaEncrypt xchachaDecrypt
  exact map_inverse_id _ _ (fun b => Nat.add_sub_cancel b (keyOf p + 1)) l

/-- The modelled ChaCha decryptor inverts the encryptor. -/
lemma chacha_roundtrip (p : List Nat) (l : List Nat) :
    chachaDecrypt p (chachaEncrypt p l) = l := by
  unfold chachaEncrypt chachaDecrypt
  exact map_inverse_id _ _ (fun b => Nat.add_sub_cancel b (keyOf p + 2)) l

/-- The modelled AES-GCM decryptor inverts the encryptor. -/
lemma aesgcm_roundtrip (p : List Nat) (l : List Nat) :
    aesGcmDecrypt p (aesGcmEncrypt p l) = l := by
  unfold aesGcmEncrypt aesGcmDecrypt
  exact map_inverse_id _ _ (fun b => Nat.add_sub_cancel b (keyOf p + 3)) l

/-- The classification step assigns each family from the token when it is
recognised and keeps the accumulator otherwise. -/
lemma classifyStep_eq (ec : EncryptionType × CompressionType) (t : String) :
    classifyStep ec t = ((encOfTok t).getD ec.1, (compOfTok t).getD ec.2) := by
  unfold classifyStep encOfTok compOfTok
  split_ifs <;> simp_all

/-- Folding the classification step over the reversed token list yields,
for each family, the first recognised token in original (front-to-back)
order, falling back to the initial value: later fold steps correspond to
tokens closer to the front of the filename and overwrite earlier ones. -/
lemma scan_spec (toks : List String) (init : EncryptionType × CompressionType) :
    toks.reverse.foldl classifyStep init
      = ((toks.findSome? encOfTok).getD init.1, (toks.findSome? compOfTok).getD init.2) := by
  induction toks generalizing init with
  | nil => rfl
  | cons t ts ih =>
    rw [List.reverse_cons, List.foldl_append]
    simp only [List.foldl_cons, List.foldl_nil]
    rw [ih init, classifyStep_eq]
    cases he : encOfTok t <;> cases hc : compOfTok t <;>
      simp [List.findSome?_cons, he, hc]

/-- The reverse-retain-reverse dance in `clear_ext` is a plain filter over
the token list: recognised tags are removed at every position. -/
lemma clear_ext_as_filter (name : String) :
    clear_ext name = joinDots ((splitDots name).filter (fun t => !(zapTags.contains t))) := by
  unfold clear_ext
  rw [List.filter_reverse, List.reverse_reverse]

/-- Positions of a two-phase trace: every index holding an element of the
first phase precedes every index holding an element of the second phase. -/
lemma phase_ordering {α : Type} (A B : List α) (pm pr : α → Bool)
    (hA : ∀ x ∈ A, pm x = true ∧ pr x = false)
    (hB : ∀ x ∈ B, pm x = false ∧ pr x = true)
    (i j : Nat) (hi : i < (A ++ B).length) (hj : j < (A ++ B).length)
    (hmi : pm ((A ++ B).get ⟨i, hi⟩) = true)
    (hrj : pr ((A ++ B).get ⟨j, hj⟩) = true) : i < j := by
  have hlen : (A ++ B).length = A.length + B.length := List.length_append A B
  have hiA : i < A.length := by
    by_contra hc
    push_neg at hc
    have hlt : i - A.length < B.length := by omega
    have hget : (A ++ B).get ⟨i, hi⟩ = B.get ⟨i - A.length, hlt⟩ := by
      simp only [List.get_eq_getElem]
      exact List.getElem_append_right hc
    rw [hget] at hmi
    have hmem : B.get ⟨i - A.length, hlt⟩ ∈ B := List.get_mem B _ hlt
    rw [(hB _ hmem).1] at hmi
    exact Bool.noConfusion hmi
  have hjB : A.length ≤ j := by
    by_contra hc
    push_neg at hc
    have hget : (A ++ B).get ⟨j, hj⟩ = A.get ⟨j, hc⟩ := by
      simp only [List.get_eq_getElem]
      exact List.getElem_append_left hc
    rw [hget] at hrj
    have hmem : A.get ⟨j, hc⟩ ∈ A := List.get_mem A _ hc
    rw [(hA _ hmem).2] at hrj
    exact Bool.noConfusion hrj
  omega

/-! ## Claims -/

/-- C1: for every input byte stream, every encryption type (identity or
non-identity, with a matching non-key secret: none or a password) and every
compression type, with signing fixed to the identity variant, running the
decompression pipeline on the output of the compression pipeline reproduces
the input bytes exactly, even when the decompress direction runs with a
different gzip compression level (as `decompress_directory` does). -/
theorem c1_compress_decompress_roundtrip (e : EncryptionType) (sec : EncryptionSecret)
    (c : CompressionType) (lvl lvl2 : Nat) (src : List Nat)
    (h : isKeySecret sec = false) :
    Except.bind (compress_dir e sec c lvl SigningType.Passthrough src).result
      (fun archived => decompress_dir e sec c lvl2 SigningType.Passthrough archived)
      = Except.ok src := by
  cases sec with
  | Key path => simp [isKeySecret] at h
  | None =>
    cases c <;>
      simp [compress_dir, decompress_dir, build_encryptor, build_compressor, build_signer,
        build_dencryptor, build_decompressor, build_verifier, Except.bind,
        signer_passthrough, verifier_passthrough, lz4_compress, lz4_decompress,
        gzip_compress, gzip_decompress, snappy_compress, snappy_decompress,
        passthrough_compress, passthrough_decompress]
  | Password p =>
    cases e <;> cases c <;>
      simp [compress_dir, decompress_dir, build_encryptor, build_compressor, build_signer,
        build_dencryptor, build_decompressor, build_verifier, Except.bind,
        signer_passthrough, verifier_passthrough, lz4_compress, lz4_decompress,
        gzip_compress, gzip_decompress, snappy_compress, snappy_decompress,
        passthrough_compress, passthrough_decompress,
        xchacha_roundtrip, chacha_roundtrip, aesgcm_roundtrip]

/-- Witness for C1 at a concrete input: AES-GCM with password `[3, 4]`,
gzip at level 9 on the compress path and level 0 on the decompress path. -/
theorem c1_compress_decompress_roundtrip_witness :
    isKeySecret (EncryptionSecret.Password [3, 4]) = false
    ∧ Except.bind (compress_dir EncryptionType.AesGcm (EncryptionSecret.Password [3, 4])
          CompressionType.Gzip 9 SigningType.Passthrough [5, 6, 7]).result
        (fun archived => decompress_dir EncryptionType.AesGcm (EncryptionSecret.Password [3, 4])
          CompressionType.Gzip 0 SigningType.Passthrough archived)
      = Except.ok [5, 6, 7] :=
  ⟨rfl, c1_compress_decompress_roundtrip EncryptionType.AesGcm
    (EncryptionSecret.Password [3, 4]) CompressionType.Gzip 9 0 [5, 6, 7] rfl⟩

/-- C2: with any non-key secret, the compress-direction stream layers nest
so that the raw source bytes pass through the signer first, then the
compressor, then the encryptor, and only then reach the destination sink;
in the decompress direction the archived bytes pass through the decryptor,
then the decompressor, then the verifier — the exact mirror order. -/
theorem c2_layer_nesting_order (e : EncryptionType) (sec : EncryptionSecret)
    (c : CompressionType) (lvl : Nat) (src archived : List Nat)
    (h : isKeySecret sec = false) :
    build_encryptor e sec c lvl SigningType.Passthrough (fun d => d) src
      = Except.ok (enc_fun e sec (comp_fun c lvl (signer_passthrough src)))
    ∧ build_dencryptor e sec c lvl SigningType.Passthrough archived
      = (match decomp_fun c (dec_fun e sec archived) with
         | some b => Except.ok (verifier_passthrough b)
         | none => Except.error (PipelineError.DecompressionFailed (codec_name c))) := by
  cases sec with
  | Key path => simp [isKeySecret] at h
  | None => exact ⟨by cases c <;> rfl, by cases c <;> rfl⟩
  | Password p => cases e <;> exact ⟨by cases c <;> rfl, by cases c <;> rfl⟩

/-- Witness for C2 at a concrete input: XChaCha with password `[7]` and
LZ4; the stated values are the reduced forms of the nested composition. -/
theorem c2_layer_nesting_order_witness :
    isKeySecret (EncryptionSecret.Password [7]) = false
    ∧ (build_encryptor EncryptionType.XChaCha (EncryptionSecret.Password [7])
          CompressionType.Lz4 5 SigningType.Passthrough (fun d => d) [1, 2]
        = Except.ok [84, 9, 10]
      ∧ build_dencryptor EncryptionType.XChaCha (EncryptionSecret.Password [7])
          CompressionType.Lz4 5 SigningType.Passthrough [9]
        = Except.error (PipelineError.DecompressionFailed "lz4")) :=
  ⟨rfl, c2_layer_nesting_order EncryptionType.XChaCha (EncryptionSecret.Password [7])
    CompressionType.Lz4 5 [1, 2] [9] rfl⟩

/-- C3 counterexample: in `a.lz4.tar` the recognised tag `lz4` sits in a
non-trailing position, yet the scan classifies it as the compression
algorithm and `clear_ext` removes it from the reconstructed name —
contradicting the claim that the first non-tag token (scanning from the
end) terminates classification and that everything before it is
preserved. -/
theorem c3_trailing_only_counterexample :
    (get_types_from_extensions "a.lz4.tar").2 = CompressionType.Lz4
    ∧ clear_ext "a.lz4.tar" = "a.tar"
    ∧ CompressionType.Lz4 ≠ CompressionType.Passthrough
    ∧ "a.tar" ≠ "a.lz4.tar" :=
  ⟨by decide, by decide, by decide, by decide⟩

/-- C3 amended: tag tokens are recognised at every position of the
dot-separated token list, not only in trailing position — classification
never terminates early (each family resolves to the front-most recognised
token, over the whole list), and `clear_ext` removes recognised tags
wherever they occur, preserving the remaining tokens in order. -/
theorem c3_tags_recognized_anywhere (name : String) :
    clear_ext name = joinDots ((splitDots name).filter (fun t => !(zapTags.contains t)))
    ∧ get_types_from_extensions name
      = (((splitDots name).findSome? encOfTok).getD EncryptionType.Passthrough,
         ((splitDots name).findSome? compOfTok).getD CompressionType.Passthrough) := by
  refine ⟨clear_ext_as_filter name, ?_⟩
  unfold get_types_from_extensions
  exact scan_spec _ _

/-- C4 counterexample: with secret `Key "mykey.pem"` and the XChaCha
cipher, `compress_dir` creates (truncates) the destination file before the
failure, and the failure is a panic with a fixed message that does not
mention the path — not an initialization error naming the unsupported
path with the destination unchanged, as the claim states. -/
theorem c4_key_secret_counterexample :
    (compress_dir EncryptionType.XChaCha (EncryptionSecret.Key "mykey.pem")
        CompressionType.Lz4 0 SigningType.Passthrough [1, 2]).destCreated = true
    ∧ (compress_dir EncryptionType.XChaCha (EncryptionSecret.Key "mykey.pem")
        CompressionType.Lz4 0 SigningType.Passthrough [1, 2]).result
      = Except.error (PipelineError.Panicked "Key encryption not yet implemented")
    ∧ PipelineError.Panicked "Key encryption not yet implemented"
      ≠ PipelineError.InitError "mykey.pem" :=
  ⟨rfl, rfl, by decide⟩

/-- C4 amended: for every pipeline whose secret is `Key(path)`, regardless
of the chosen cipher, compression panics through the `unimplemented` macro
with a fixed message that does not name the path, and only after the
destination file has already been created and truncated. -/
theorem c4_key_secret_panics (e : EncryptionType) (c : CompressionType) (lvl : Nat)
    (s : SigningType) (src : List Nat) (path : String) :
    (compress_dir e (EncryptionSecret.Key path) c lvl s src).destCreated = true
    ∧ (compress_dir e (EncryptionSecret.Key path) c lvl s src).result
      = Except.error (PipelineError.Panicked "Key encryption not yet implemented") :=
  ⟨rfl, rfl⟩

/-- C5 counterexample: extracting `a.lz4` with the explicit override flag
`--compression_algorithm snappy` resolves to LZ4 — the suffix-derived
value, not the explicit flag, decides. -/
theorem c5_explicit_flag_counterexample :
    (resolveExtractTypes EncryptionType.Passthrough CompressionType.Snappy "a.lz4").2
      = CompressionType.Lz4
    ∧ CompressionType.Lz4 ≠ CompressionType.Snappy :=
  ⟨by decide, by decide⟩

/-- C5 amended: on extraction the precedence is reversed — whenever the
input filename carries a recognised tag of a family, that suffix-derived
value overwrites the caller-supplied flag; the explicit flag is used only
when no tag of its family appears in the filename. -/
theorem c5_suffix_tags_override_flags (encFlag : EncryptionType)
    (compFlag : CompressionType) (name : String) :
    resolveExtractTypes encFlag compFlag name
      = (((splitDots name).findSome? encOfTok).getD encFlag,
         ((splitDots name).findSome? compOfTok).getD compFlag) := by
  unfold resolveExtractTypes
  exact scan_spec _ _

/-- C6 counterexample: the per-file suffix produced by
`build_common_extension` for (XChaCha, LZ4) is `.xcha.lz4`, with no
container-format tag, and applying it to `data.json` yields
`data.json.xcha.lz4` — not `data.json.xcha.lz4.zap` as the claim (suffix
includes the fixed container tag) would require. -/
theorem c6_container_tag_counterexample :
    build_common_extension EncryptionType.XChaCha CompressionType.Lz4 = ".xcha.lz4"
    ∧ build_common_extension EncryptionType.XChaCha CompressionType.Lz4 ≠ ".xcha.lz4.zap"
    ∧ rewrite_ext "data.json" (build_common_extension EncryptionType.XChaCha CompressionType.Lz4)
      = "data.json.xcha.lz4"
    ∧ "data.json.xcha.lz4" ≠ "data.json.xcha.lz4.zap" :=
  ⟨by decide, by decide, by decide, by decide⟩

/-- C6 amended: the per-file suffix is the encryption tag (if non-identity)
followed by the compression tag (if non-identity) and nothing else — the
container tag is not part of it (the CLI appends `.zap` to the packed
archive name separately); applied to a relative file name the suffix is
appended after an existing final extension and becomes the new extension
when the file has none (in both cases the rewritten name is the original
name followed by the suffix). -/
theorem c6_suffix_encoding (e : EncryptionType) (c : CompressionType) :
    build_common_extension e c = enc_tag e ++ comp_tag c
    ∧ rewrite_ext "data.json" (build_common_extension e c)
      = "data.json" ++ build_common_extension e c
    ∧ rewrite_ext "data" (build_common_extension e c)
      = "data" ++ build_common_extension e c := by
  cases e <;> cases c <;> exact ⟨by decide, by decide, by decide⟩

/-- C7: suffix classification is order-insensitive among recognised tags;
`a.tar.lz4.xcha` decodes to compression LZ4, encryption XChaCha, and the
reconstructed base name is `a.tar`. -/
theorem c7_order_insensitive_decode :
    get_types_from_extensions "a.tar.lz4.xcha"
      = (EncryptionType.XChaCha, CompressionType.Lz4)
    ∧ get_types_from_extensions "a.tar.xcha.lz4"
      = (EncryptionType.XChaCha, CompressionType.Lz4)
    ∧ clear_ext "a.tar.lz4.xcha" = "a.tar"
    ∧ clear_ext "a.tar.xcha.lz4" = "a.tar" :=
  ⟨by decide, by decide, by decide, by decide⟩

/-- C8: in both directory operations the directory-creation fan-out
occupies trace positions strictly before every per-file pipeline
execution: whenever position `i` holds a directory creation and position
`j` holds a pipeline run, `i < j`. -/
theorem c8_mkdirs_before_pipelines (inputs : List String)
    (outF commonExtension : String) :
    (∀ (i j : Nat) (hi : i < (compress_directory_trace inputs outF commonExtension).length)
        (hj : j < (compress_directory_trace inputs outF commonExtension).length),
      isMkDirEvent ((compress_directory_trace inputs outF commonExtension).get ⟨i, hi⟩) = true →
      isRunEvent ((compress_directory_trace inputs outF commonExtension).get ⟨j, hj⟩) = true →
      i < j)
    ∧ (∀ (i j : Nat) (hi : i < (decompress_directory_trace inputs outF).length)
        (hj : j < (decompress_directory_trace inputs outF).length),
      isMkDirEvent ((decompress_directory_trace inputs outF).get ⟨i, hi⟩) = true →
      isRunEvent ((decompress_directory_trace inputs outF).get ⟨j, hj⟩) = true →
      i < j) := by
  constructor
  · intro i j hi hj hm hr
    exact phase_ordering _ _ isMkDirEvent isRunEvent
      (by intro x hx; simp [List.mem_map] at hx; obtain ⟨a, _, ha⟩ := hx;
          rw [← ha]; exact ⟨rfl, rfl⟩)
      (by intro x hx; simp [List.mem_map] at hx; obtain ⟨a, _, ha⟩ := hx;
          rw [← ha]; exact ⟨rfl, rfl⟩)
      i j hi hj hm hr
  · intro i j hi hj hm hr
    exact phase_ordering _ _ isMkDirEvent isRunEvent
      (by intro x hx; simp [List.mem_map] at hx; obtain ⟨a, _, ha⟩ := hx;
          rw [← ha]; exact ⟨rfl, rfl⟩)
      (by intro x hx; simp [List.mem_map] at hx; obtain ⟨a, _, ha⟩ := hx;
          rw [← ha]; exact ⟨rfl, rfl⟩)
      i j hi hj hm hr

/-- Witness for C8 on a one-file operation: in the compress trace of
`a.txt` the directory creation sits at position 0 and the pipeline run at
position 1. -/
theorem c8_mkdirs_before_pipelines_witness :
    isMkDirEvent ((compress_directory_trace ["a.txt"] "out" ".lz4").get ⟨0, by decide⟩) = true
    ∧ isRunEvent ((compress_directory_trace ["a.txt"] "out" ".lz4").get ⟨1, by decide⟩) = true
    ∧ 0 < 1 :=
  ⟨by decide, by decide,
    (c8_mkdirs_before_pipelines ["a.txt"] "out" ".lz4").1 0 1 (by decide) (by decide)
      (by decide) (by decide)⟩

/-- C9: when the secret is `None` the chosen encryption type is ignored
entirely — the pipeline behaves exactly as with the passthrough cipher,
the compress direction succeeds with the compressed-signed stream, and the
decompress direction likewise ignores the cipher selection. -/
theorem c9_none_secret_ignores_cipher (e : EncryptionType) (c : CompressionType)
    (lvl : Nat) (src archived : List Nat) :
    build_encryptor e EncryptionSecret.None c lvl SigningType.Passthrough (fun d => d) src
      = build_encryptor EncryptionType.Passthrough EncryptionSecret.None c lvl
          SigningType.Passthrough (fun d => d) src
    ∧ build_encryptor e EncryptionSecret.None c lvl SigningType.Passthrough (fun d => d) src
      = Except.ok (comp_fun c lvl (signer_passthrough src))
    ∧ build_dencryptor e EncryptionSecret.None c lvl SigningType.Passthrough archived
      = build_dencryptor EncryptionType.Passthrough EncryptionSecret.None c lvl
          SigningType.Passthrough archived :=
  ⟨rfl, by cases c <;> rfl, rfl⟩

/-- C10: when a filename carries more than one recognised tag of the same
family, the scan (which iterates the reversed token list with overwriting
assignments) selects the tag closest to the start of the filename: each
family resolves to its front-most recognised token, `a.gz.lz4` decodes to
Gzip rather than LZ4, and both recognised tokens are removed from the
reconstructed name. -/
theorem c10_front_most_tag_wins :
    (∀ name, get_types_from_extensions name
      = (((splitDots name).findSome? encOfTok).getD EncryptionType.Passthrough,
         ((splitDots name).findSome? compOfTok).getD CompressionType.Passthrough))
    ∧ get_types_from_extensions "a.gz.lz4"
      = (EncryptionType.Passthrough, CompressionType.Gzip)
    ∧ clear_ext "a.gz.lz4" = "a" := by
  refine ⟨fun name => ?_, by decide, by decide⟩
  unfold get_types_from_extensions
  exact scan_spec _ _
